import Mathlib

/-!
Verification of `simulated_discharging/discharge_cycle.py` (battery
discharge scheduler).  The Python source is shallowly embedded below:
numbers that are Python floats become rationals (only order comparisons
and exact constants occur in the claims, where the two agree), the CSV
rows become explicit records, exceptions become `Except` / scripted
outcomes, and the side-effecting control loop of
`BatteryDischargeScheduler.run` becomes a pure interpreter over a
script of per-tick outcomes that records the device commands it issues
as an event trace.
-/

namespace DischargeCycle

/-- One schedule point, as built by `load_schedule`:
`{'time': time_sec, 'current': current}`. -/
structure SchedulePoint where
  time : ℚ
  current : ℚ
deriving DecidableEq, Repr

/-- The sort key used at line 57 of the source:
`self.schedule.sort(key=lambda x: x['time'])`.  Python's `list.sort`
compares only the keys and is stable; `List.mergeSort` with this
boolean comparison has exactly those semantics. -/
def timeLE (a b : SchedulePoint) : Bool :=
  a.time ≤ b.time

/-- A schedule sorted ascending by `time` (the invariant `load_schedule`
establishes). -/
def SortedByTime (s : List SchedulePoint) : Prop :=
  s.Pairwise fun a b => a.time ≤ b.time

instance (s : List SchedulePoint) : Decidable (SortedByTime s) := by
  unfold SortedByTime
  infer_instance

/-- The scan inside `get_scheduled_current`:
```
current = self.schedule[0]['current']
for point in self.schedule:
    if elapsed_time >= point['time']:
        current = point['current']
    else:
        break
return current
```
`acc` is the running value of the local variable `current`. -/
def scanCurrent (elapsed : ℚ) : ℚ → List SchedulePoint → ℚ
  | acc, [] => acc
  | acc, p :: ps => if elapsed ≥ p.time then scanCurrent elapsed p.current ps else acc

/-- `BatteryDischargeScheduler.get_scheduled_current` (lines 79–93). -/
def getScheduledCurrent (schedule : List SchedulePoint) (elapsed : ℚ) : ℚ :=
  match schedule with
  | [] => 0
  | p0 :: _ => scanCurrent elapsed p0.current schedule

/-- Specification-side lookup, written from the spec's words: "returns
the setpoint of the last point whose `offset ≤ elapsed` …; if no
point's offset has been reached yet, returns the first point's
setpoint …; returns `0` for an empty schedule".  To be compared with
`getScheduledCurrent`, which is translated from the source. -/
def specCurrentAt (schedule : List SchedulePoint) (elapsed : ℚ) : ℚ :=
  match schedule with
  | [] => 0
  | p0 :: _ =>
    match (schedule.filter fun p => decide (p.time ≤ elapsed)).getLast? with
    | some p => p.current
    | none => p0.current

/-! ### Schedule loading -/

/-- A CSV cell as seen by `float(...)`: either text that parses to a
(possibly negative) real number, or malformed text that raises
`ValueError`. -/
inductive Cell where
  | num (q : ℚ)
  | malformed
deriving DecidableEq, Repr

/-- One row of the schedule CSV as produced by `csv.DictReader`:
an association from column names to cells. -/
structure RawRow where
  fields : List (String × Cell)
deriving DecidableEq, Repr

/-- Errors `load_schedule` turns into `sys.exit(1)`. -/
inductive LoadError where
  | fileNotFound
  | keyError
  | valueError
deriving DecidableEq, Repr

/-- `float(row[key])`: a missing column raises `KeyError`, malformed
text raises `ValueError`, and any numeral — negative included — is
accepted, exactly as Python's `float` accepts it. -/
def parseField (r : RawRow) (key : String) : Except LoadError ℚ :=
  match (r.fields.find? fun kv => kv.1 = key) with
  | none => .error .keyError
  | some (_, .malformed) => .error .valueError
  | some (_, .num q) => .ok q

/-- The per-row body of the reader loop (lines 52–55). -/
def parseRow (r : RawRow) : Except LoadError SchedulePoint := do
  let t ← parseField r "time_seconds"
  let c ← parseField r "current_amps"
  pure ⟨t, c⟩

/-- The reader loop over all rows. -/
def parseRows : List RawRow → Except LoadError (List SchedulePoint)
  | [] => .ok []
  | r :: rs => do
    let p ← parseRow r
    let ps ← parseRows rs
    pure (p :: ps)

/-- `BatteryDischargeScheduler.load_schedule` (lines 46–69) acting on
the instance state: `prev` is the value of `self.schedule` before the
call (the loop appends each parsed row to it, without clearing), and
line 57 then sorts the whole list stably by `time`.  A parse failure
models `sys.exit(1)`. -/
def loadSchedule (prev : List SchedulePoint) (rows : List RawRow) :
    Except LoadError (List SchedulePoint) :=
  match parseRows rows with
  | .error e => .error e
  | .ok ps => .ok ((prev ++ ps).mergeSort timeLE)

/-! ### The control loop and shutdown guard

`BatteryDischargeScheduler.run` (lines 95–156) and `cleanup`
(lines 158–170).  Device commands are recorded as an event trace; the
outcome of each fallible operation (a device call raising, the log file
write raising, a `KeyboardInterrupt` arriving) is prescribed by a
script, so one interpreter covers every exit path of the loop. -/

/-- Python's exception classes, as the handlers distinguish them:
`KeyboardInterrupt` is not a subclass of `Exception`, so
`except Exception` catches `deviceError` and `sinkError` but not
`interrupt`. -/
inductive Exc where
  | interrupt
  | deviceError
  | sinkError
deriving DecidableEq, Repr

/-- Whether an exception is caught by `except Exception`. -/
def Exc.isException : Exc → Bool
  | .interrupt => false
  | .deviceError => true
  | .sinkError => true

/-- Commands and effects the scheduler issues, in order.  `setCurrent c`
is `self.load.current = c`, `enableOutput` is `self.load.input.on()`,
`disableOutput` is `self.load.input.off()`, `initLog` is
`initialize_log_file()`, `appendLog` is the `writer.writerow` of one
measurement record, `sleep d` is `time.sleep(d)`. -/
inductive Event where
  | setCurrent (c : ℚ)
  | enableOutput
  | disableOutput
  | initLog
  | appendLog (elapsed voltage current power : ℚ)
  | sleep (d : ℚ)
deriving DecidableEq, Repr

/-- Scripted outcomes for one iteration of the `while self.running`
loop: the clock reading at the top of the tick, whether each fallible
operation raises, the measured values, and the fresh clock reading
`time.time()` in the `time.sleep` argument. -/
structure TickScript where
  now : ℚ
  commandExc : Option Exc
  readExc : Option Exc
  volt : ℚ
  curr : ℚ
  pow : ℚ
  appendExc : Option Exc
  sleepNow : ℚ
  sleepExc : Option Exc
deriving Repr

/-- Scripted outcomes for a whole session: connection, the pre-loop
setup commands, the start time, the ticks (the interpreter's fuel: the
real loop has no normal exit, `self.running` is never cleared inside
it), and the outcomes of the two device commands `cleanup` issues. -/
structure Script where
  connectExc : Option Exc
  initCmdExc : Option Exc
  enableExc : Option Exc
  initLogExc : Option Exc
  startTime : ℚ
  ticks : List TickScript
  cleanupZeroExc : Option Exc
  cleanupOffExc : Option Exc
deriving Repr

/-- One iteration of the `while` body (lines 122–148): command the
scheduled current; if `current_time >= next_log_time`, advance the
deadline to `current_time + logging_interval`, read the measurements,
append the record; finally `time.sleep(max(0, next_log_time -
time.time()))`.  Returns the events issued, the exception that escaped
the iteration (if any), and the new `next_log_time`. -/
def runTick (schedule : List SchedulePoint) (interval startTime nextLog : ℚ)
    (t : TickScript) : List Event × Option Exc × ℚ :=
  let elapsed := t.now - startTime
  let sc := getScheduledCurrent schedule elapsed
  match t.commandExc with
  | some e => ([Event.setCurrent sc], some e, nextLog)
  | none =>
    if t.now ≥ nextLog then
      let nl := t.now + interval
      match t.readExc with
      | some e => ([Event.setCurrent sc], some e, nl)
      | none =>
        match t.appendExc with
        | some e => ([Event.setCurrent sc], some e, nl)
        | none =>
          let evs := [Event.setCurrent sc, Event.appendLog elapsed t.volt t.curr t.pow]
          let d := max 0 (nl - t.sleepNow)
          (evs ++ [Event.sleep d], t.sleepExc, nl)
    else
      let d := max 0 (nextLog - t.sleepNow)
      ([Event.setCurrent sc, Event.sleep d], t.sleepExc, nextLog)

/-- The `while self.running` loop, iterated over the scripted ticks.
An escaped exception stops the iteration; exhausting the script leaves
the loop still running (`none`). -/
def runLoop (schedule : List SchedulePoint) (interval startTime : ℚ) :
    ℚ → List TickScript → List Event × Option Exc
  | _, [] => ([], none)
  | nextLog, t :: rest =>
    let r := runTick schedule interval startTime nextLog t
    match r.2.1 with
    | some e => (r.1, some e)
    | none =>
      let r2 := runLoop schedule interval startTime r.2.2 rest
      (r.1 ++ r2.1, r2.2)

/-- The body of the `try` in `run` (lines 98–148): connect (the `with`
target `self.load` is only assigned when `KELSerial(...)` succeeds),
command `0.0`, enable the output, initialise the log file, then enter
the loop with `next_log_time = start_time`.  Returns the events, the
exception escaping the body, and whether `self.load` was assigned. -/
def runBody (schedule : List SchedulePoint) (interval : ℚ) (s : Script) :
    List Event × Option Exc × Bool :=
  match s.connectExc with
  | some e => ([], some e, false)
  | none =>
    match s.initCmdExc with
    | some e => ([Event.setCurrent 0], some e, true)
    | none =>
      match s.enableExc with
      | some e => ([Event.setCurrent 0, Event.enableOutput], some e, true)
      | none =>
        match s.initLogExc with
        | some e => ([Event.setCurrent 0, Event.enableOutput, Event.initLog], some e, true)
        | none =>
          let r := runLoop schedule interval s.startTime s.startTime s.ticks
          ([Event.setCurrent 0, Event.enableOutput, Event.initLog] ++ r.1, r.2, true)

/-- `BatteryDischargeScheduler.cleanup` (lines 158–170): only when
`self.load` is set, one `try` block commands current to `0.0` and then
turns the input off; `except Exception` logs the failure.  An exception
raised by the first statement skips the second — both live in the same
`try`.  Returns the commands issued and the exception escaping
`cleanup` (only a `KeyboardInterrupt` can). -/
def cleanup (connected : Bool) (zeroExc offExc : Option Exc) :
    List Event × Option Exc :=
  if connected then
    let r : List Event × Option Exc :=
      match zeroExc with
      | some e => ([Event.setCurrent 0], some e)
      | none =>
        match offExc with
        | some e => ([Event.setCurrent 0, Event.disableOutput], some e)
        | none => ([Event.setCurrent 0, Event.disableOutput], none)
    match r.2 with
    | some e => if e.isException then (r.1, none) else (r.1, some e)
    | none => (r.1, none)
  else ([], none)

/-- How `run` ends, seen from its caller. -/
inductive RunResult where
  | stillRunning
  | interrupted
  | raised (e : Exc)
deriving DecidableEq, Repr

/-- The caller-visible outcome determined by the exception escaping the
`try` body, after the two `except` clauses: `KeyboardInterrupt` is
swallowed (lines 150–151), any `Exception` is re-raised (lines
152–154). -/
def resultOfBody : Option Exc → RunResult
  | none => .stillRunning
  | some .interrupt => .interrupted
  | some e => .raised e

/-- `BatteryDischargeScheduler.run` (lines 95–156): the `try` body,
the `except` clauses, and the `finally: self.cleanup()` which runs on
every exit; an exception escaping `cleanup` replaces the pending
one. -/
def run (schedule : List SchedulePoint) (interval : ℚ) (s : Script) :
    List Event × RunResult :=
  let b := runBody schedule interval s
  let c := cleanup b.2.2 s.cleanupZeroExc s.cleanupOffExc
  match c.2 with
  | some e => (b.1 ++ c.1, .raised e)
  | none => (b.1 ++ c.1, resultOfBody b.2.1)

/-- `s` with its tick script replaced (same session otherwise). -/
def withTicks (s : Script) (ts : List TickScript) : Script :=
  ⟨s.connectExc, s.initCmdExc, s.enableExc, s.initLogExc, s.startTime, ts,
    s.cleanupZeroExc, s.cleanupOffExc⟩

/-! ### Concrete inputs used in the theorems below -/

/-- The sample schedule from the source's docstring and the spec:
`[(0,1.0),(300,2.0),(600,1.5),(900,0.5)]`. -/
def ex4 : List SchedulePoint := [⟨0, 1⟩, ⟨300, 2⟩, ⟨600, mkRat 3 2⟩, ⟨900, mkRat 1 2⟩]

/-- The value branch of `specCurrentAt`, split out for induction. -/
def lastMatch (schedule : List SchedulePoint) (elapsed dflt : ℚ) : ℚ :=
  match (schedule.filter fun p => decide (p.time ≤ elapsed)).getLast? with
  | some p => p.current
  | none => dflt

/-- A well-formed numeric CSV row. -/
def numRow (t c : ℚ) : RawRow :=
  ⟨[("time_seconds", .num t), ("current_amps", .num c)]⟩

/-- A row whose `time_seconds` cell is unparseable text. -/
def badTimeRow : RawRow :=
  ⟨[("time_seconds", Cell.malformed), ("current_amps", .num 1)]⟩

/-- A tick whose `time.sleep` is interrupted by Ctrl+C. -/
def tickInterrupted : TickScript := ⟨0, none, none, 12, 1, 12, none, 0, some .interrupt⟩

/-- A session interrupted during its first tick's sleep. -/
def csInterrupt : Script := ⟨none, none, none, none, 0, [tickInterrupted], none, none⟩

/-- A tick whose `self.load.current = …` command raises a device error. -/
def tickCmdFail : TickScript := ⟨0, some .deviceError, none, 0, 0, 0, none, 0, none⟩

/-- A session whose loop dies on a device error and whose cleanup
zero-current command then raises as well. -/
def csCleanupZeroFail : Script :=
  ⟨none, none, none, none, 0, [tickCmdFail], some .deviceError, none⟩

/-- A tick whose log-file append raises. -/
def tickAppendFail : TickScript := ⟨0, none, none, 12, 1, 12, some .sinkError, 0, none⟩

/-- A healthy tick at t = 1. -/
def tickNormal : TickScript := ⟨1, none, none, 12, 1, 12, none, 1, none⟩

/-- A session whose first tick fails at the log append, with a second
tick scripted after it. -/
def csAppend2 : Script := ⟨none, none, none, none, 0, [tickAppendFail, tickNormal], none, none⟩

/-- The same session with the second tick removed. -/
def csAppend1 : Script := ⟨none, none, none, none, 0, [tickAppendFail], none, none⟩

/-- A session whose device connection fails. -/
def csConnectFail : Script := ⟨some .deviceError, none, none, none, 0, [], none, none⟩

end DischargeCycle

/-! ## Helper lemmas -/

namespace DischargeCycle

/-- The loop's scan equals the last-matching-point rule, for any
initial accumulator, on a schedule sorted by time. -/
theorem scanCurrent_eq_lastMatch (e : ℚ) :
    ∀ (l : List SchedulePoint) (acc : ℚ), l.Pairwise (fun a b => a.time ≤ b.time) →
      scanCurrent e acc l = lastMatch l e acc := by
  intro l
  induction l with
  | nil => intro acc _; simp [scanCurrent, lastMatch]
  | cons p ps ih =>
    intro acc h
    rw [List.pairwise_cons] at h
    by_cases hpe : p.time ≤ e
    · have h1 : scanCurrent e acc (p :: ps) = scanCurrent e p.current ps := by
        simp [scanCurrent, ge_iff_le, hpe]
      rw [h1, ih p.current h.2]
      simp only [lastMatch, List.filter_cons, decide_eq_true_eq, hpe, if_true]
      rw [List.getLast?_cons]
      cases hg : (ps.filter fun q => decide (q.time ≤ e)).getLast? <;> simp [hg]
    · have h1 : scanCurrent e acc (p :: ps) = acc := by
        simp [scanCurrent, ge_iff_le, hpe]
      have hnil : (ps.filter fun q => decide (q.time ≤ e)) = [] := by
        rw [List.filter_eq_nil_iff]
        intro q hq
        simp only [decide_eq_true_eq]
        intro hqe
        exact hpe (le_trans (h.1 q hq) hqe)
      simp [h1, lastMatch, List.filter_cons, hpe, hnil]

/-- A row failing to parse anywhere in the input makes the whole
reader loop fail (with the first error encountered). -/
theorem parseRows_error_of_mem :
    ∀ (rows : List RawRow) (r : RawRow) (e : LoadError),
      r ∈ rows → parseRow r = .error e → ∃ e2, parseRows rows = .error e2 := by
  intro rows
  induction rows with
  | nil => intro r e hr; simp at hr
  | cons r0 rest ih =>
    intro r e hr he
    cases hp0 : parseRow r0 with
    | error e0 => exact ⟨e0, by simp only [parseRows, hp0]; rfl⟩
    | ok p0 =>
      rcases List.mem_cons.mp hr with rfl | hr2
      · rw [hp0] at he; exact absurd he (by simp)
      · obtain ⟨e2, h2⟩ := ih r e hr2 he
        exact ⟨e2, by simp only [parseRows, hp0, h2]; rfl⟩

/-- `timeLE` is transitive. -/
theorem timeLE_trans2 :
    ∀ a b c : SchedulePoint, timeLE a b → timeLE b c → timeLE a c := by
  intro a b c hab hbc
  simp only [timeLE, decide_eq_true_eq] at *
  exact le_trans hab hbc

/-- `timeLE` is total. -/
theorem timeLE_total2 : ∀ a b : SchedulePoint, timeLE a b || timeLE b a := by
  intro a b
  simp only [timeLE, Bool.or_eq_true, decide_eq_true_eq]
  exact le_total a.time b.time

/-- Once the connection succeeds, the `with` target `self.load` is set,
whatever happens later in the body. -/
theorem runBody_connected :
    ∀ (sched : List SchedulePoint) (interval : ℚ) (s : Script), s.connectExc = none →
      (runBody sched interval s).2.2 = true := by
  intro sched i s h
  simp only [runBody, h]
  repeat' split
  all_goals rfl

/-- A loop tick never issues `input.off()`. -/
theorem runTick_no_disable :
    ∀ (sched : List SchedulePoint) (i st nl : ℚ) (t : TickScript),
      Event.disableOutput ∉ (runTick sched i st nl t).1 := by
  intro sched i st nl t
  simp only [runTick]
  repeat' split
  all_goals simp

/-- The whole loop never issues `input.off()`. -/
theorem runLoop_no_disable :
    ∀ (sched : List SchedulePoint) (i st : ℚ) (ticks : List TickScript) (nl : ℚ),
      Event.disableOutput ∉ (runLoop sched i st nl ticks).1 := by
  intro sched i st ticks
  induction ticks with
  | nil => intro nl; simp [runLoop]
  | cons t rest ih =>
    intro nl
    have hne := runTick_no_disable sched i st nl t
    simp only [runLoop]
    split
    · exact hne
    · simp only [List.mem_append]
      rintro (h | h)
      · exact hne h
      · exact ih _ h

/-- The `try` body never issues `input.off()`: only `cleanup` does. -/
theorem runBody_no_disable :
    ∀ (sched : List SchedulePoint) (i : ℚ) (s : Script),
      Event.disableOutput ∉ (runBody sched i s).1 := by
  intro sched i s
  simp only [runBody]
  repeat' split
  all_goals simp
  exact runLoop_no_disable sched i s.startTime s.ticks s.startTime

/-! ## Claim theorems -/

/-- Claim C2: for every sorted schedule and elapsed time,
`get_scheduled_current` returns the setpoint of the last point whose
offset has been reached, the first point's setpoint when none has, and
`0` for an empty schedule; in particular, on the schedule
`[(0,1.0),(300,2.0),(600,1.5),(900,0.5)]` it returns `1.0` at `0`,
`1.0` at `299.999`, `2.0` at `300`, and `0.5` at `1e9`. -/
theorem getScheduledCurrent_eq_spec :
    (∀ (s : List SchedulePoint) (e : ℚ), SortedByTime s →
        getScheduledCurrent s e = specCurrentAt s e) ∧
      getScheduledCurrent ex4 0 = 1 ∧
      getScheduledCurrent ex4 (mkRat 299999 1000) = 1 ∧
      getScheduledCurrent ex4 300 = 2 ∧
      getScheduledCurrent ex4 1000000000 = mkRat 1 2 ∧
      (∀ e : ℚ, getScheduledCurrent [] e = 0) := by
  refine ⟨?_, by decide, by decide, by decide, by decide, fun e => rfl⟩
  intro s e hs
  cases s with
  | nil => rfl
  | cons p0 ps =>
    have := scanCurrent_eq_lastMatch e (p0 :: ps) p0.current hs
    simp only [getScheduledCurrent, this, specCurrentAt, lastMatch]

/-- Witness for C2 at the sample schedule and `elapsed = 300`. -/
theorem getScheduledCurrent_eq_spec_witness :
    SortedByTime ex4 ∧ getScheduledCurrent ex4 300 = specCurrentAt ex4 300 :=
  ⟨by decide, getScheduledCurrent_eq_spec.1 ex4 300 (by decide)⟩

/-- Claim C9: `get_scheduled_current` is total, and for any elapsed
value below every offset — a negative clock reading included — it
returns the first point's setpoint. -/
theorem getScheduledCurrent_before_first :
    ∀ (p0 : SchedulePoint) (ps : List SchedulePoint) (e : ℚ),
      (∀ p ∈ p0 :: ps, e < p.time) →
      getScheduledCurrent (p0 :: ps) e = p0.current := by
  intro p0 ps e h
  have h0 : ¬ e ≥ p0.time := not_le.mpr (h p0 (by simp))
  simp [getScheduledCurrent, scanCurrent, h0]

/-- Witness for C9 at schedule `[(100,1),(200,2)]` and a negative
elapsed time. -/
theorem gsc_before_first_witness :
    getScheduledCurrent [⟨100, 1⟩, ⟨200, 2⟩] (-5) = 1 :=
  getScheduledCurrent_before_first ⟨100, 1⟩ [⟨200, 2⟩] (-5) (by decide)

/-- Claim C6: loading `[(0,1.0),(0,2.0)]` keeps the tie in input order
(the sort is stable) and the lookup at `0` returns `2.0` — the last
point at the duplicated offset wins. -/
theorem loadSchedule_stable_tie :
    loadSchedule [] [numRow 0 1, numRow 0 2] = .ok [⟨0, 1⟩, ⟨0, 2⟩] ∧
      getScheduledCurrent [⟨0, 1⟩, ⟨0, 2⟩] 0 = 2 := by
  constructor
  · have h : parseRows [numRow 0 1, numRow 0 2] = .ok [⟨0, 1⟩, ⟨0, 2⟩] := rfl
    simp [loadSchedule, h]
    rw [List.mergeSort_of_sorted]
    decide
  · decide

/-- Counterexample to claim C5: a negative offset and a negative
setpoint are both accepted — loading succeeds where the claim says it
must fail. -/
theorem loadSchedule_accepts_negative :
    loadSchedule [] [numRow (-1) 1] = .ok [⟨-1, 1⟩] ∧
      loadSchedule [] [numRow 0 (-2)] = .ok [⟨0, -2⟩] := by
  constructor
  · have h : parseRows [numRow (-1) 1] = .ok [⟨-1, 1⟩] := rfl
    simp [loadSchedule, h]
  · have h : parseRows [numRow 0 (-2)] = .ok [⟨0, -2⟩] := rfl
    simp [loadSchedule, h]

/-- Claim C5 as amended: schedule load validates that each row's
fields are present and numerically parseable — any such defect fails
the load — but it does not reject negative offsets or setpoints:
rows with negative values load successfully. -/
theorem loadSchedule_validates_parse_only :
    (∀ (prev : List SchedulePoint) (rows : List RawRow) (r : RawRow) (e : LoadError),
        r ∈ rows → parseRow r = .error e → ∃ e2, loadSchedule prev rows = .error e2) ∧
      (∀ t c : ℚ, t < 0 ∨ c < 0 → loadSchedule [] [numRow t c] = .ok [⟨t, c⟩]) := by
  constructor
  · intro prev rows r e hr he
    obtain ⟨e2, h2⟩ := parseRows_error_of_mem rows r e hr he
    exact ⟨e2, by simp [loadSchedule, h2]⟩
  · intro t c _
    have h : parseRows [numRow t c] = .ok [⟨t, c⟩] := rfl
    simp [loadSchedule, h]

/-- Witness for amended C5: a malformed `time_seconds` cell fails the
load, a negative offset loads fine. -/
theorem loadSchedule_validates_witness :
    badTimeRow ∈ [badTimeRow] ∧ ((-1 : ℚ) < 0 ∨ (1 : ℚ) < 0) ∧
      (∃ e2, loadSchedule [] [badTimeRow] = .error e2) ∧
      loadSchedule [] [numRow (-1) 1] = .ok [⟨-1, 1⟩] := by
  refine ⟨by simp, by norm_num, ?_, ?_⟩
  · exact loadSchedule_validates_parse_only.1 [] [badTimeRow] badTimeRow
      LoadError.valueError (by simp) rfl
  · exact loadSchedule_validates_parse_only.2 (-1) 1 (by norm_num)

/-- Claim C10: `load_schedule` does not reset previously loaded
points: the second load's result is a sorted permutation of the first
load's input together with the second's, not the second alone. -/
theorem loadSchedule_appends :
    ∀ (rows1 rows2 : List RawRow) (ps1 ps2 : List SchedulePoint),
      parseRows rows1 = .ok ps1 → parseRows rows2 = .ok ps2 →
      ∃ s1 s2, loadSchedule [] rows1 = .ok s1 ∧ loadSchedule s1 rows2 = .ok s2 ∧
        s2.Perm (ps1 ++ ps2) ∧ SortedByTime s2 := by
  intro rows1 rows2 ps1 ps2 h1 h2
  refine ⟨ps1.mergeSort timeLE, ((ps1.mergeSort timeLE) ++ ps2).mergeSort timeLE,
    by simp [loadSchedule, h1], by simp [loadSchedule, h2], ?_, ?_⟩
  · exact (List.mergeSort_perm _ _).trans
      ((List.mergeSort_perm ps1 timeLE).append_right ps2)
  · have hs : ((ps1.mergeSort timeLE ++ ps2).mergeSort timeLE).Pairwise
        (fun a b => timeLE a b = true) :=
      List.sorted_mergeSort timeLE_trans2 timeLE_total2 _
    exact hs.imp fun h => by simpa [timeLE] using h

/-- Witness for C10: two one-row loads accumulate both rows. -/
theorem loadSchedule_appends_witness :
    parseRows [numRow 300 2] = .ok [⟨300, 2⟩] ∧ parseRows [numRow 0 1] = .ok [⟨0, 1⟩] ∧
      (∃ s1 s2, loadSchedule [] [numRow 300 2] = .ok s1 ∧
        loadSchedule s1 [numRow 0 1] = .ok s2 ∧
        s2.Perm ([⟨300, 2⟩] ++ [⟨0, 1⟩]) ∧ SortedByTime s2) :=
  ⟨rfl, rfl, loadSchedule_appends [numRow 300 2] [numRow 0 1] [⟨300, 2⟩] [⟨0, 1⟩] rfl rfl⟩

end DischargeCycle

namespace DischargeCycle

/-- Claim C8: when a sample is taken (`now ≥ nextSampleDeadline`),
the next deadline is `now + samplingInterval` — computed from the
current time, independently of the previous deadline — and the tick
then sleeps for `max(0, nextSampleDeadline − now())`. -/
theorem runTick_deadline_from_now :
    ∀ (sched : List SchedulePoint) (interval startTime nextLog : ℚ) (t : TickScript),
      t.commandExc = none → t.readExc = none → t.appendExc = none → t.now ≥ nextLog →
      (runTick sched interval startTime nextLog t).2.2 = t.now + interval ∧
      (runTick sched interval startTime nextLog t).1 =
        [Event.setCurrent (getScheduledCurrent sched (t.now - startTime)),
         Event.appendLog (t.now - startTime) t.volt t.curr t.pow,
         Event.sleep (max 0 (t.now + interval - t.sleepNow))] := by
  intro sched i st nl t h1 h2 h3 h4
  simp [runTick, h1, h2, h3, h4]

/-- Witness for C8 at a healthy tick that samples. -/
theorem runTick_deadline_witness :
    (runTick ex4 1 0 0 tickNormal).2.2 = tickNormal.now + 1 ∧
      (runTick ex4 1 0 0 tickNormal).1 =
        [Event.setCurrent (getScheduledCurrent ex4 (tickNormal.now - 0)),
         Event.appendLog (tickNormal.now - 0) tickNormal.volt tickNormal.curr tickNormal.pow,
         Event.sleep (max 0 (tickNormal.now + 1 - tickNormal.sleepNow))] :=
  runTick_deadline_from_now ex4 1 0 0 tickNormal rfl rfl rfl (by decide)

/-- Claim C1: whenever the session exits after a successful connect —
interrupt, runtime error, wherever it strikes — the shutdown sequence
(current to `0`, then output off) is issued before control returns,
provided the shutdown commands themselves do not fault. -/
theorem run_always_cleans_up :
    ∀ (sched : List SchedulePoint) (interval : ℚ) (s : Script),
      s.connectExc = none → s.cleanupZeroExc = none → s.cleanupOffExc = none →
      (run sched interval s).2 ≠ RunResult.stillRunning →
      ∃ pre, (run sched interval s).1 = pre ++ [Event.setCurrent 0, Event.disableOutput] := by
  intro sched i s hc hz ho _
  have hconn := runBody_connected sched i s hc
  refine ⟨(runBody sched i s).1, ?_⟩
  simp [run, hconn, hz, ho, cleanup]

/-- Witness for C1 at a session interrupted during its first sleep. -/
theorem run_always_cleans_up_witness :
    csInterrupt.connectExc = none ∧ csInterrupt.cleanupZeroExc = none ∧
      csInterrupt.cleanupOffExc = none ∧
      (run [] 1 csInterrupt).2 ≠ RunResult.stillRunning ∧
      ∃ pre, (run [] 1 csInterrupt).1 = pre ++ [Event.setCurrent 0, Event.disableOutput] :=
  ⟨rfl, rfl, rfl, by decide, run_always_cleans_up [] 1 csInterrupt rfl rfl rfl (by decide)⟩

/-- Claim C7: when the device connection fails, no command at all is
issued — in particular no current setpoint and no output enable. -/
theorem run_connect_fail_no_energization :
    ∀ (sched : List SchedulePoint) (interval : ℚ) (s : Script) (e : Exc),
      s.connectExc = some e →
      (run sched interval s).1 = [] ∧
      (∀ c, Event.setCurrent c ∉ (run sched interval s).1) ∧
      Event.enableOutput ∉ (run sched interval s).1 := by
  intro sched i s e h
  have hr : run sched i s = ([], resultOfBody (some e)) := by
    simp [run, runBody, h, cleanup]
  rw [hr]
  simp

/-- Witness for C7 at a session whose connect raises. -/
theorem run_connect_fail_witness :
    csConnectFail.connectExc = some Exc.deviceError ∧
      (run [] 1 csConnectFail).1 = [] ∧
      Event.setCurrent 0 ∉ (run [] 1 csConnectFail).1 ∧
      Event.enableOutput ∉ (run [] 1 csConnectFail).1 :=
  ⟨rfl, (run_connect_fail_no_energization [] 1 csConnectFail .deviceError rfl).1,
    (run_connect_fail_no_energization [] 1 csConnectFail .deviceError rfl).2.1 0,
    (run_connect_fail_no_energization [] 1 csConnectFail .deviceError rfl).2.2⟩

/-- Counterexample to claim C3: when the zero-current command in
`cleanup` raises, `input.off()` is never attempted — both statements
sit in the same `try` block, so the exception skips the second. -/
theorem cleanup_zero_fail_no_disable_counterexample :
    Event.disableOutput ∉ (run [] 1 csCleanupZeroFail).1 ∧
      (run [] 1 csCleanupZeroFail).2 = RunResult.raised Exc.deviceError := by
  constructor
  · decide
  · rfl

/-- Claim C3 as amended: if commanding zero current during the
shutdown sequence raises an `Exception`, the output-disable command is
skipped, and the cleanup failure is logged rather than raised — the
caller still sees the outcome determined by the loop's own exit. -/
theorem cleanup_error_skips_disable :
    ∀ (sched : List SchedulePoint) (interval : ℚ) (s : Script) (e : Exc),
      s.connectExc = none → s.cleanupZeroExc = some e → e.isException = true →
      Event.disableOutput ∉ (run sched interval s).1 ∧
      (run sched interval s).2 = resultOfBody (runBody sched interval s).2.1 := by
  intro sched i s e hc hz hex
  have hconn := runBody_connected sched i s hc
  have hclean : cleanup (runBody sched i s).2.2 s.cleanupZeroExc s.cleanupOffExc
      = ([Event.setCurrent 0], none) := by
    rw [hconn, hz]
    simp [cleanup, hex]
  constructor
  · simp only [run, hclean, List.mem_append]
    rintro (h | h)
    · exact runBody_no_disable sched i s h
    · simp at h
  · simp [run, hclean]

/-- Witness for amended C3 at a session whose cleanup zeroing
raises. -/
theorem cleanup_error_skips_disable_witness :
    csCleanupZeroFail.connectExc = none ∧
      csCleanupZeroFail.cleanupZeroExc = some Exc.deviceError ∧
      Exc.deviceError.isException = true ∧
      Event.disableOutput ∉ (run [] 1 csCleanupZeroFail).1 ∧
      (run [] 1 csCleanupZeroFail).2 = resultOfBody (runBody [] 1 csCleanupZeroFail).2.1 :=
  ⟨rfl, rfl, rfl,
    (cleanup_error_skips_disable [] 1 csCleanupZeroFail .deviceError rfl rfl rfl).1,
    (cleanup_error_skips_disable [] 1 csCleanupZeroFail .deviceError rfl rfl rfl).2⟩

/-- Counterexample to claim C4: a log append failure at the first tick
ends the session with the error re-raised, and the trace is the same
whether or not a second tick was scripted — the loop did not
continue. -/
theorem append_error_kills_loop_counterexample :
    (run [] 1 csAppend2).2 = RunResult.raised Exc.sinkError ∧
      (run [] 1 csAppend2).1 = (run [] 1 csAppend1).1 :=
  ⟨rfl, rfl⟩

/-- Claim C4 as amended: an error raised while appending a measurement
record terminates the control loop like any other runtime exception —
no later tick executes, the shutdown sequence runs, and the error is
re-raised to the caller. -/
theorem append_error_terminates_loop :
    ∀ (sched : List SchedulePoint) (interval : ℚ) (s : Script) (t : TickScript)
      (rest : List TickScript),
      s.connectExc = none → s.initCmdExc = none → s.enableExc = none → s.initLogExc = none →
      s.cleanupZeroExc = none → s.cleanupOffExc = none → s.ticks = t :: rest →
      t.commandExc = none → t.readExc = none → t.appendExc = some .sinkError →
      t.now ≥ s.startTime →
      (run sched interval s).2 = RunResult.raised Exc.sinkError ∧
      ∀ rest2, run sched interval (withTicks s (t :: rest2)) = run sched interval s := by
  intro sched i s t rest hc hic hen hil hz ho hticks h1 h2 h3 h4
  have htick : runTick sched i s.startTime s.startTime t =
      ([Event.setCurrent (getScheduledCurrent sched (t.now - s.startTime))],
        some .sinkError, t.now + i) := by
    simp [runTick, h1, h2, h3, h4]
  have hloop : ∀ ts2 : List TickScript,
      runLoop sched i s.startTime s.startTime (t :: ts2) =
      ([Event.setCurrent (getScheduledCurrent sched (t.now - s.startTime))],
        some .sinkError) := by
    intro ts2
    simp [runLoop, htick]
  have hbody0 : runBody sched i s =
      ([Event.setCurrent 0, Event.enableOutput, Event.initLog,
        Event.setCurrent (getScheduledCurrent sched (t.now - s.startTime))],
        some .sinkError, true) := by
    simp [runBody, hc, hic, hen, hil, hticks, hloop]
  have hbody : ∀ ts2 : List TickScript,
      runBody sched i (withTicks s (t :: ts2)) =
      ([Event.setCurrent 0, Event.enableOutput, Event.initLog,
        Event.setCurrent (getScheduledCurrent sched (t.now - s.startTime))],
        some .sinkError, true) := by
    intro ts2
    simp [runBody, withTicks, hc, hic, hen, hil, hloop]
  constructor
  · simp [run, hbody0, cleanup, hz, ho, resultOfBody]
  · intro rest2
    have hb2 := hbody rest2
    have hz2 : (withTicks s (t :: rest2)).cleanupZeroExc = none := hz
    have ho2 : (withTicks s (t :: rest2)).cleanupOffExc = none := ho
    simp [run, hb2, hbody0, cleanup, hz, ho, hz2, ho2]

/-- Witness for amended C4 at the scripted append failure. -/
theorem append_error_terminates_witness :
    (run [] 1 csAppend2).2 = RunResult.raised Exc.sinkError ∧
      run [] 1 (withTicks csAppend2 [tickAppendFail]) = run [] 1 csAppend2 :=
  ⟨(append_error_terminates_loop [] 1 csAppend2 tickAppendFail [tickNormal]
      rfl rfl rfl rfl rfl rfl rfl rfl rfl rfl (by decide)).1,
    (append_error_terminates_loop [] 1 csAppend2 tickAppendFail [tickNormal]
      rfl rfl rfl rfl rfl rfl rfl rfl rfl rfl (by decide)).2 [tickAppendFail]⟩

end DischargeCycle
